import Mathlib

/- Verification development for the SNS-to-Slack Lambda
   (src/index.js and src/filters/config-changes.js).

   The JavaScript source is shallowly embedded: JSON values become an
   inductive type, JavaScript functions become executable Lean functions,
   and code paths that throw (for example a strict-mode TypeError) become
   the error branch of an Except value. -/

namespace SnsToSlack

/- Characters that this development writes via their code points: the
   apostrophe (39), double quote (34), backslash (92), and braces (123/125),
   all of which occur in the JavaScript string literals being modelled. -/

def apos : String := String.singleton (Char.ofNat 39)

def dquote : Char := Char.ofNat 34

def bslash : Char := Char.ofNat 92

def lbrace : Char := Char.ofNat 123

def rbrace : Char := Char.ofNat 125

def dquoteS : String := String.singleton dquote

def lbraceS : String := String.singleton lbrace

def rbraceS : String := String.singleton rbrace

/-- A JSON value as produced by JSON.parse: null, a boolean, a number, a
string, an array, or a plain object whose key/value pairs keep insertion
order (the order Object.keys reports). Numbers are modelled as integers;
fractional or exponent literals are not modelled and are treated as a
parse failure. -/
inductive Json where
  | null
  | bool (b : Bool)
  | num (n : Int)
  | str (s : String)
  | arr (elems : List Json)
  | obj (kvs : List (String × Json))

/-- First-occurrence lookup of a key in an object body, mirroring property
access on a JavaScript object (keys are unique in parsed objects). -/
def lookupKey : List (String × Json) → String → Option Json
  | [], _ => none
  | (k0, v0) :: rest, k => if k0 = k then some v0 else lookupKey rest k

/-- Property assignment obj[k] = v: replaces the value in place when the key
exists (keeping its position) and appends the key otherwise, exactly as a
JavaScript object behaves. -/
def setKey : List (String × Json) → String → Json → List (String × Json)
  | [], k, v => [(k, v)]
  | (k0, v0) :: rest, k, v =>
    if k0 = k then (k0, v) :: rest else (k0, v0) :: setKey rest k v

/-- JavaScript truthiness of a JSON value: null, false, 0 and the empty
string are falsy; every array and object is truthy. -/
def truthy : Json → Bool
  | .null => false
  | .bool b => b
  | .num n => n != 0
  | .str s => s != ""
  | .arr _ => true
  | .obj _ => true

/-- Truthiness of a possibly-undefined value (undefined is falsy). -/
def truthyOpt : Option Json → Bool
  | none => false
  | some j => truthy j

/-- Property read input.k: a lookup on objects; undefined (none) on every
other value. (In the source, property reads only ever happen on values the
caller has already checked to be plain objects.) -/
def jsGet : Json → String → Option Json
  | .obj kvs, k => lookupKey kvs k
  | _, _ => none

/-- Object.keys(x).length: the number of keys of an object, the number of
elements of an array, the number of characters of a string, zero for
booleans and numbers, and none for null (where Object.keys throws). -/
def jsKeysLength : Json → Option Nat
  | .obj kvs => some kvs.length
  | .arr elems => some elems.length
  | .str s => some s.length
  | .bool _ => some 0
  | .num _ => some 0
  | .null => none

/-- The is-plain-obj check from src/index.js: true exactly for plain
objects. -/
def isPlainObj : Json → Bool
  | .obj _ => true
  | _ => false

/- ---------------------------------------------------------------------
   Severity classifier: getColorBySeverity (src/index.js lines 167-183)
   --------------------------------------------------------------------- -/

/-- needle is a character-list prefix of hay. -/
def charsHavePre : List Char → List Char → Bool
  | [], _ => true
  | _ :: _, [] => false
  | a :: as, b :: bs => a == b && charsHavePre as bs

/-- needle occurs as a contiguous run somewhere in hay. -/
def charsOccur (needle : List Char) : List Char → Bool
  | [] => charsHavePre needle []
  | b :: bs => charsHavePre needle (b :: bs) || charsOccur needle bs

/-- text.indexOf(needle) !== -1: needle occurs as a substring of hay
(case-sensitive, unanchored). -/
def occursIn (needle hay : String) : Bool := charsOccur needle.toList hay.toList

/-- The thirteenth danger keyword, kept as its own definition because the
surrounding apostrophes are written via code points: a leading space, then
"has reached the build status of", then FAILED in single quotes, with no
trailing period. -/
def dangerFailedMsg : String :=
  " has reached the build status of " ++ apos ++ "FAILED" ++ apos

/-- The twelfth warning keyword: same shape with IN_PROGRESS. -/
def warningInProgressMsg : String :=
  " has reached the build status of " ++ apos ++ "IN_PROGRESS" ++ apos

/-- dangerMessages from src/index.js lines 28-42, in source order. -/
def dangerMessages : List String :=
  [ " but with errors",
    " to RED",
    "During an aborted deployment",
    "Failed to deploy application",
    "Failed to deploy configuration",
    "has a dependent object",
    "is not authorized to perform",
    "Pending to Degraded",
    "Stack deletion failed",
    "Unsuccessful command execution",
    "You do not have permission",
    "Your quota allows for 0 more running instance",
    dangerFailedMsg ]

/-- warningMessages from src/index.js lines 44-57, in source order. -/
def warningMessages : List String :=
  [ " aborted operation.",
    " to YELLOW",
    "Adding instance ",
    "Degraded to Info",
    "Deleting SNS topic",
    "is currently running under desired capacity",
    "Ok to Info",
    "Ok to Warning",
    "Pending Initialization",
    "Removed instance ",
    "Rollback of environment",
    warningInProgressMsg ]

/-- getColorBySeverity from src/index.js: scan the danger keywords in order
and return "danger" on the first substring hit; otherwise scan the warning
keywords and return "warning" on the first hit; otherwise "good". -/
def getColorBySeverity (text : String) : String :=
  match dangerMessages.find? (fun m => occursIn m text) with
  | some _ => "danger"
  | none =>
    match warningMessages.find? (fun m => occursIn m text) with
    | some _ => "warning"
    | none => "good"

/- ---------------------------------------------------------------------
   ARN topic-name extraction: getNameFromArn (src/index.js lines 148-156)
   --------------------------------------------------------------------- -/

/-- Whether the regex fragment three-digits-then-colon matches at the head
of the character list. -/
def arnHdMatch : List Char → Bool
  | a :: b :: c :: d :: _ => a.isDigit && b.isDigit && c.isDigit && (d == ':')
  | _ => false

/-- Leftmost-match scan for the regex used by getNameFromArn: at the first
position where three digits are followed by a colon, capture everything
after the colon (the greedy capture group runs to the end of the string);
none when no position matches. -/
def arnScan : List Char → Option (List Char)
  | [] => none
  | a :: rest =>
    if arnHdMatch (a :: rest) then some ((a :: rest).drop 4) else arnScan rest

/-- getNameFromArn from src/index.js: the capture of the first regex match,
or none (the JavaScript code returns false) when the match throws because
the regex found nothing. -/
def getNameFromArn (arn : String) : Option String :=
  (arnScan arn.toList).map List.asString

/-- The username chosen by the handler: topicName || arn, where an absent
or empty topic name falls back to the raw ARN (the empty string is falsy).
-/
def slackUsername (arn : String) : String :=
  match getNameFromArn arn with
  | some n => if n = "" then arn else n
  | none => arn

/- ---------------------------------------------------------------------
   JSON.parse model.  The source calls the runtime JSON.parse on the SNS
   message text; this embedding implements the same grammar for objects,
   arrays, strings (with the single-character escapes), integer numbers,
   true, false and null.  Fractional and exponent number literals and
   unicode escapes are not modelled: inputs using them count as a parse
   failure here.  The parser is fuel-indexed; the fuel chosen by jsonParse
   is always sufficient because every recursive call consumes input.
   --------------------------------------------------------------------- -/

/-- Skip JSON whitespace. -/
def skipWs : List Char → List Char
  | c :: rest =>
    if c = ' ' || c = '\t' || c = '\n' || c = '\r' then skipWs rest else c :: rest
  | [] => []

/-- Decode the character following a backslash inside a JSON string. -/
def escDecode (e : Char) : Option Char :=
  if e = dquote then some dquote
  else if e = bslash then some bslash
  else if e = '/' then some '/'
  else if e = 'n' then some '\n'
  else if e = 't' then some '\t'
  else if e = 'r' then some '\r'
  else if e = 'b' then some (Char.ofNat 8)
  else if e = 'f' then some (Char.ofNat 12)
  else none

/-- Parse the body of a JSON string after the opening quote, returning the
decoded characters and the remainder after the closing quote. -/
def parseStrChars : List Char → Option (List Char × List Char)
  | [] => none
  | c :: rest =>
    if c = dquote then some ([], rest)
    else if c = bslash then
      match rest with
      | [] => none
      | e :: rest2 =>
        match escDecode e with
        | some d => (parseStrChars rest2).map (fun p => (d :: p.1, p.2))
        | none => none
    else (parseStrChars rest).map (fun p => (c :: p.1, p.2))

/-- Longest digit run at the head of the input. -/
def takeDigits : List Char → (List Char × List Char)
  | [] => ([], [])
  | c :: rest =>
    if c.isDigit then
      let p := takeDigits rest
      (c :: p.1, p.2)
    else ([], c :: rest)

/-- Natural number denoted by a digit run. -/
def natOfDigits : List Char → Nat
  | [] => 0
  | ds => ds.foldl (fun acc c => 10 * acc + (c.toNat - 48)) 0

/-- Parse an integer JSON number literal (optional minus, then digits). -/
def parseNumber : List Char → Option (Json × List Char)
  | '-' :: rest =>
    match takeDigits rest with
    | ([], _) => none
    | (ds, r) => some (.num (-(natOfDigits ds : Int)), r)
  | l =>
    match takeDigits l with
    | ([], _) => none
    | (ds, r) => some (.num (natOfDigits ds : Int), r)

mutual

/-- Parse one JSON value (fuel-indexed recursive descent). -/
def parseValue : Nat → List Char → Option (Json × List Char)
  | 0, _ => none
  | fuel + 1, input =>
    match skipWs input with
    | [] => none
    | c :: rest =>
      if c = 'n' then
        match rest with
        | 'u' :: 'l' :: 'l' :: r => some (.null, r)
        | _ => none
      else if c = 't' then
        match rest with
        | 'r' :: 'u' :: 'e' :: r => some (.bool true, r)
        | _ => none
      else if c = 'f' then
        match rest with
        | 'a' :: 'l' :: 's' :: 'e' :: r => some (.bool false, r)
        | _ => none
      else if c = dquote then
        (parseStrChars rest).map (fun p => (.str p.1.asString, p.2))
      else if c = '[' then
        match skipWs rest with
        | ']' :: r => some (.arr [], r)
        | r2 => parseElems fuel r2 []
      else if c = lbrace then
        match skipWs rest with
        | r2 =>
          if charsHavePre [rbrace] r2 then some (.obj [], r2.drop 1)
          else parseMembers fuel r2 []
      else if c = '-' || c.isDigit then parseNumber (c :: rest)
      else none

/-- Parse the comma-separated elements of a non-empty array, up to the
closing bracket. -/
def parseElems : Nat → List Char → List Json → Option (Json × List Char)
  | 0, _, _ => none
  | fuel + 1, s, acc =>
    match parseValue fuel s with
    | none => none
    | some (v, rest) =>
      match skipWs rest with
      | ',' :: r2 => parseElems fuel r2 (acc ++ [v])
      | ']' :: r2 => some (.arr (acc ++ [v]), r2)
      | _ => none

/-- Parse the comma-separated members of a non-empty object, up to the
closing brace.  A duplicate key keeps its original position with the later
value, as JSON.parse does. -/
def parseMembers : Nat → List Char → List (String × Json) → Option (Json × List Char)
  | 0, _, _ => none
  | fuel + 1, s, acc =>
    match skipWs s with
    | [] => none
    | c :: rest =>
      if c = dquote then
        match parseStrChars rest with
        | none => none
        | some (kcs, r1) =>
          match skipWs r1 with
          | ':' :: r2 =>
            match parseValue fuel r2 with
            | none => none
            | some (v, r3) =>
              let acc2 := setKey acc kcs.asString v
              match skipWs r3 with
              | ',' :: r4 => parseMembers fuel r4 acc2
              | d :: r4 => if d = rbrace then some (.obj acc2, r4) else none
              | [] => none
          | _ => none
      else none

end

/-- JSON.parse on a whole string: the parse succeeds when one value is
consumed and only whitespace remains. -/
def jsonParse (s : String) : Option Json :=
  match parseValue (4 * s.length + 16) s.toList with
  | some (v, rest) => if skipWs rest = [] then some v else none
  | none => none

/- ---------------------------------------------------------------------
   JSON.stringify model (compact form, as called with a single argument).
   --------------------------------------------------------------------- -/

/-- Escape one character for a JSON string literal.  (Control characters
other than newline, tab and carriage return are emitted verbatim; JS would
use unicode escapes for them, which no input here contains.) -/
def escChar (c : Char) : List Char :=
  if c = dquote then [bslash, dquote]
  else if c = bslash then [bslash, bslash]
  else if c = '\n' then [bslash, 'n']
  else if c = '\t' then [bslash, 't']
  else if c = '\r' then [bslash, 'r']
  else [c]

/-- Escape a whole string for a JSON string literal. -/
def escString (s : String) : String := ((s.toList.map escChar).flatten).asString

mutual

/-- JSON.stringify of a value. -/
def jsonStringify : Json → String
  | .null => "null"
  | .bool true => "true"
  | .bool false => "false"
  | .num n => toString n
  | .str s => dquoteS ++ escString s ++ dquoteS
  | .arr elems => "[" ++ stringifyElems elems ++ "]"
  | .obj kvs => lbraceS ++ stringifyMembers kvs ++ rbraceS

/-- Comma-separated serialization of array elements. -/
def stringifyElems : List Json → String
  | [] => ""
  | [x] => jsonStringify x
  | x :: y :: rest => jsonStringify x ++ "," ++ stringifyElems (y :: rest)

/-- Comma-separated serialization of object members. -/
def stringifyMembers : List (String × Json) → String
  | [] => ""
  | [(k, v)] => dquoteS ++ escString k ++ dquoteS ++ ":" ++ jsonStringify v
  | (k, v) :: m :: rest =>
    dquoteS ++ escString k ++ dquoteS ++ ":" ++ jsonStringify v ++ "," ++
      stringifyMembers (m :: rest)

end

/- ---------------------------------------------------------------------
   Config-change filter: src/filters/config-changes.js
   --------------------------------------------------------------------- -/

/-- Strict equality of a property read against a string literal, as used by
the filter guard: true exactly when the property is present and is that
string. -/
def strictEqStr : Option Json → String → Bool
  | some (.str s), t => s == t
  | _, _ => false

/-- The filter from src/filters/config-changes.js.  Inputs without a truthy
configurationItemDiff or whose messageType is not the config-change type are
returned untouched; otherwise the result is the diff, and when the diff
holds exactly a truthy changedProperties and a truthy changeType, the result
is the changedProperties object with output.changeType = output.changeType
|| diff.changeType assigned into it.  The error branch models the
strict-mode TypeError raised when that assignment targets a primitive; the
assignment onto an array (which JavaScript would allow, attaching a named
property) is not representable in this Json model and is mapped to the same
error branch, a case no parsed notification reaches. -/
def configChanges (input : Json) : Except String Json :=
  if !truthyOpt (jsGet input "configurationItemDiff")
      || !strictEqStr (jsGet input "messageType") "ConfigurationItemChangeNotification" then
    .ok input
  else
    match jsGet input "configurationItemDiff" with
    | none => .ok input
    | some output =>
      if truthyOpt (jsGet output "changedProperties")
          && truthyOpt (jsGet output "changeType")
          && jsKeysLength output == some 2 then
        match jsGet output "changedProperties", jsGet output "changeType" with
        | some cpj, some ctj =>
          match cpj with
          | .obj cp =>
            .ok (.obj (setKey cp "changeType"
              (match lookupKey cp "changeType" with
                | some w => if truthy w then w else ctj
                | none => ctj)))
          | _ => .error "TypeError: Cannot create property on a non-object value"
        | _, _ => .ok output
      else .ok output

/-- The ordered filter list discovered by globby.sync on src/filters: the
repository ships exactly one filter module, config-changes.js. -/
def parsingFilters : List (Json → Except String Json) := [configChanges]

/-- applyParsingFilters from src/index.js: thread the value through every
discovered filter in order. -/
def applyParsingFilters (input : Json) : Except String Json :=
  parsingFilters.foldlM (fun out f => f out) input

/- ---------------------------------------------------------------------
   Field flattener: maybeGetAttachmentFields (src/index.js lines 196-241)
   --------------------------------------------------------------------- -/

/-- The while loop of maybeGetAttachmentFields: while typeof data is
object (which in JavaScript includes arrays and null) and
Object.keys(data).length is 1, descend into the single entry.  When the
descent reaches null, the condition typeof null === object holds and
Object.keys(null) throws a TypeError, modelled by the error branch. -/
def unwrapSingles : Json → Except String Json
  | .null => .error "TypeError: Cannot convert undefined or null to object"
  | .obj [(_, v)] => unwrapSingles v
  | .arr [v] => unwrapSingles v
  | d => .ok d

/-- One Slack attachment field: title, value, short rendering hint. -/
structure AttachmentField where
  title : String
  value : String
  short : Bool
deriving DecidableEq

/-- SLACK_COLUMN_LENGTH from src/index.js. -/
def SLACK_COLUMN_LENGTH : Nat := 28

/-- Build one field: the value is used directly when it is a string and
JSON-serialized otherwise; short is set when the rendered value fits the
column threshold. -/
def mkField (k : String) (v : Json) : AttachmentField :=
  let value := match v with
    | .str s => s
    | other => jsonStringify other
  { title := k, value := value, short := value.length ≤ SLACK_COLUMN_LENGTH }

/-- The two shapes maybeGetAttachmentFields can return: an array of
attachment fields, or a string to use as the attachment text. -/
inductive FlattenResult where
  | fields (fs : List AttachmentField)
  | txt (t : String)
deriving DecidableEq

/-- maybeGetAttachmentFields from src/index.js: parse the message text as
JSON (parse failure returns the text unchanged), return the text unchanged
when the parsed value is not a plain object, apply the registered filters,
unwrap single-entry wrappers, serialize a non-object survivor back to a
string, and otherwise turn every remaining property into a field. -/
def maybeGetAttachmentFields (text : String) : Except String FlattenResult :=
  match jsonParse text with
  | none => .ok (.txt text)
  | some parsed =>
    if !isPlainObj parsed then .ok (.txt text)
    else
      match applyParsingFilters parsed with
      | .error e => .error e
      | .ok filtered =>
        match unwrapSingles filtered with
        | .error e => .error e
        | .ok data =>
          if !isPlainObj data then .ok (.txt (jsonStringify data))
          else
            match data with
            | .obj kvs => .ok (.fields (kvs.map (fun kv => mkField kv.1 kv.2)))
            | _ => .ok (.txt (jsonStringify data))

/- ---------------------------------------------------------------------
   Handler / message assembler: exports.handler (src/index.js lines 59-98)
   --------------------------------------------------------------------- -/

/-- The Sns record of the incoming event (event.Records[0].Sns); optional
members are absent or present strings. -/
structure SnsRecord where
  TopicArn : String
  Subject : Option String
  Message : String
  UnsubscribeUrl : Option String

/-- Truthiness of an optional string member (absent and empty are falsy). -/
def truthyStr : Option String → Bool
  | none => false
  | some s => s != ""

/-- attachment.text.replace of the quote-trim regex: drop one leading and
one trailing double-quote character when present. -/
def trimQuotes (s : String) : String :=
  let l := s.toList
  let l1 := if charsHavePre [dquote] l then l.drop 1 else l
  let l2 := if l1.getLast? = some dquote then l1.dropLast else l1
  l2.asString

/-- One Slack message attachment as assembled by the handler. -/
structure SlackAttachment where
  color : String
  text : String
  footer : String
  fields : Option (List AttachmentField)
deriving DecidableEq

/-- The outgoing Slack message. -/
structure SlackMessage where
  text : String
  username : String
  attachments : List SlackAttachment
deriving DecidableEq

/-- exports.handler from src/index.js, up to the point where the assembled
message is handed to the HTTP delivery code (sendToSlack itself is outside
the transformation pipeline).  The DEBUG diagnostics (process.env.DEBUG) are
modelled as disabled.  The error branch carries a TypeError thrown by
maybeGetAttachmentFields. -/
def handler (sns : SnsRecord) : Except String SlackMessage :=
  let topicText := if truthyStr sns.Subject
    then "*" ++ sns.Subject.getD "" ++ "*" else ""
  let username := slackUsername sns.TopicArn
  let color := getColorBySeverity sns.Message
  let footer := if truthyStr sns.UnsubscribeUrl
    then "<" ++ sns.UnsubscribeUrl.getD "" ++ "|Unsubscribe>" else ""
  match maybeGetAttachmentFields sns.Message with
  | .error e => .error e
  | .ok (.fields fs) =>
    .ok { text := topicText, username := username,
          attachments := [{ color := color, text := "", footer := footer,
                            fields := some fs }] }
  | .ok (.txt t) =>
    .ok { text := topicText, username := username,
          attachments := [{ color := color, text := trimQuotes t, footer := footer,
                            fields := none }] }

/- ---------------------------------------------------------------------
   Helper lemmas
   --------------------------------------------------------------------- -/

/-- A danger keyword occurring in the text forces the classifier to answer
danger, whatever else the text contains. -/
theorem danger_of_occurs (text m : String) (hm : m ∈ dangerMessages)
    (hocc : occursIn m text = true) : getColorBySeverity text = "danger" := by
  unfold getColorBySeverity
  cases hd : dangerMessages.find? (fun m => occursIn m text) with
  | some x => rfl
  | none =>
    exact absurd hocc (List.find?_eq_none.mp hd m hm)

/-- Assigning an absent key appends it. -/
theorem setKey_of_not_mem (kvs : List (String × Json)) (k : String) (v : Json)
    (h : lookupKey kvs k = none) : setKey kvs k v = kvs ++ [(k, v)] := by
  induction kvs with
  | nil => rfl
  | cons hd tl ih =>
    obtain ⟨k0, v0⟩ := hd
    unfold lookupKey at h
    unfold setKey
    by_cases hk : k0 = k
    · simp [hk] at h
    · simp only [if_neg hk] at h ⊢
      rw [ih h]
      rfl

/-- Assigning the value a key already holds leaves the object unchanged. -/
theorem setKey_self (kvs : List (String × Json)) (k : String) (v : Json)
    (h : lookupKey kvs k = some v) : setKey kvs k v = kvs := by
  induction kvs with
  | nil => simp [lookupKey] at h
  | cons hd tl ih =>
    obtain ⟨k0, v0⟩ := hd
    unfold lookupKey at h
    unfold setKey
    by_cases hk : k0 = k
    · simp only [if_pos hk] at h ⊢
      rw [Option.some_inj] at h
      rw [h]
    · simp only [if_neg hk] at h ⊢
      rw [ih h]

/-- The identifier contains three consecutive digits followed by a colon. -/
def HasDddColon (l : List Char) : Prop :=
  ∃ l1 a b c l2, l = l1 ++ a :: b :: c :: ':' :: l2
    ∧ a.isDigit = true ∧ b.isDigit = true ∧ c.isDigit = true

/-- A successful regex scan exhibits a digits-colon pattern in the input. -/
theorem hasDdd_of_arnScan (l r : List Char) (h : arnScan l = some r) :
    HasDddColon l := by
  induction l with
  | nil => simp [arnScan] at h
  | cons a rest ih =>
    unfold arnScan at h
    by_cases hm : arnHdMatch (a :: rest)
    · match rest, hm with
      | b :: c :: d :: tail, hm =>
        unfold arnHdMatch at hm
        simp only [Bool.and_eq_true, beq_iff_eq] at hm
        obtain ⟨⟨⟨h1, h2⟩, h3⟩, h4⟩ := hm
        exact ⟨[], a, b, c, tail, by simp [h4], h1, h2, h3⟩
    · rw [if_neg hm] at h
      obtain ⟨l1, a', b', c', l2, heq, h1, h2, h3⟩ := ih h
      exact ⟨a :: l1, a', b', c', l2, by rw [heq]; rfl, h1, h2, h3⟩

/-- A digits-colon pattern anywhere in the input makes the regex scan
succeed. -/
theorem arnScan_ne_none_of_hasDdd (l : List Char) (h : HasDddColon l) :
    arnScan l ≠ none := by
  obtain ⟨l1, a, b, c, l2, heq, h1, h2, h3⟩ := h
  subst heq
  induction l1 with
  | nil =>
    have hm : arnHdMatch (a :: b :: c :: ':' :: l2) = true := by
      simp [arnHdMatch, h1, h2, h3]
    rw [List.nil_append]
    unfold arnScan
    rw [if_pos hm]
    simp
  | cons x l1' ih =>
    rw [List.cons_append]
    unfold arnScan
    split
    · simp
    · exact ih

/-- The extraction fails exactly on identifiers with no digits-colon
pattern. -/
theorem getNameFromArn_none_iff (arn : String) :
    getNameFromArn arn = none ↔ ¬ HasDddColon arn.toList := by
  unfold getNameFromArn
  constructor
  · intro h hdd
    rw [Option.map_eq_none'] at h
    exact arnScan_ne_none_of_hasDdd _ hdd h
  · intro hdd
    cases hs : arnScan arn.toList with
    | none => simp [hs]
    | some r => exact absurd (hasDdd_of_arnScan _ r hs) hdd

/-- Decidable equality for Except results over decidable payloads. -/
instance {ε α : Type} [DecidableEq ε] [DecidableEq α] : DecidableEq (Except ε α) := fun a b =>
  match a, b with
  | .ok x, .ok y =>
    if h : x = y then isTrue (by rw [h]) else isFalse (fun hh => h (by injection hh))
  | .error x, .error y =>
    if h : x = y then isTrue (by rw [h]) else isFalse (fun hh => h (by injection hh))
  | .ok _, .error _ => isFalse (fun hh => Except.noConfusion hh)
  | .error _, .ok _ => isFalse (fun hh => Except.noConfusion hh)

/- ---------------------------------------------------------------------
   Claim theorems
   --------------------------------------------------------------------- -/

/-- A message whose single-property unwrap chain reaches null. -/
def nullWrapMessage : String := "\x7b\"a\":null\x7d"

/-- C1: the claim says payload assembly is total for every notification
event, in particular when the single-property unwrap chain reaches null.
The code is not: on the message with body a-maps-to-null, the unwrap loop
accepts null (typeof null is object in JavaScript) and then calls
Object.keys(null), which throws a TypeError, so the handler produces no
payload at all.  This theorem evaluates the embedded handler at that
failing event and exhibits the thrown error. -/
theorem assembler_throws_on_null_unwrap :
    handler { TopicArn := "topic-arn", Subject := none,
              Message := nullWrapMessage, UnsubscribeUrl := none }
      = .error "TypeError: Cannot convert undefined or null to object" := rfl

/-- The message whose body is the single pair a-maps-to-b. -/
def singlePairMessage : String := "\x7b\"a\":\"b\"\x7d"

/-- C2 counterexample: the claim says flatten of the single-pair object
returns the one-field sequence title a, value b, short true.  It does not:
the single-property unwrap fires first (the object has exactly one key), so
the value b is unwrapped and serialized, and the result is the string
quote-b-quote, not a field sequence. -/
theorem flatten_single_prop_cex :
    maybeGetAttachmentFields singlePairMessage = .ok (.txt "\"b\"")
    ∧ maybeGetAttachmentFields singlePairMessage
        ≠ .ok (.fields [{ title := "a", value := "b", short := true }]) :=
  ⟨rfl, by decide⟩

/-- C2 amended: flatten of the single-pair object returns the JSON-serialized
sole value, the string quote-b-quote; the handler quote-trim then reduces it
to the bare string b. -/
theorem flatten_single_prop_amended :
    maybeGetAttachmentFields singlePairMessage = .ok (.txt "\"b\"")
    ∧ trimQuotes "\"b\"" = "b" :=
  ⟨rfl, rfl⟩

/-- C3: the classifier always answers one of danger, warning, good; and any
danger keyword occurring in the text forces the answer danger, no matter
what else (including warning keywords) the text contains. -/
theorem severity_total_and_danger_overrides (text : String) :
    (getColorBySeverity text = "danger" ∨ getColorBySeverity text = "warning"
      ∨ getColorBySeverity text = "good")
    ∧ (∀ m ∈ dangerMessages, occursIn m text = true →
        getColorBySeverity text = "danger") := by
  constructor
  · unfold getColorBySeverity
    cases hd : dangerMessages.find? (fun m => occursIn m text) with
    | some x => exact Or.inl rfl
    | none =>
      cases hw : warningMessages.find? (fun m => occursIn m text) with
      | some x => exact Or.inr (Or.inl rfl)
      | none => exact Or.inr (Or.inr rfl)
  · intro m hm hocc
    exact danger_of_occurs text m hm hocc

/-- C3 witness: a text containing both the danger keyword Pending to
Degraded and the warning keyword Ok to Warning classifies as danger. -/
theorem severity_total_and_danger_overrides_witness :
    getColorBySeverity "Pending to Degraded then Ok to Warning" = "danger" :=
  (severity_total_and_danger_overrides "Pending to Degraded then Ok to Warning").2
    "Pending to Degraded" (by decide) (by decide)

/-- The exact substring quoted by the claim: no leading space and a
trailing period around the FAILED build-status phrase. -/
def claimedFailedText : String :=
  "has reached the build status of " ++ apos ++ "FAILED" ++ apos ++ "."

/-- C4 counterexample: the claim says every text containing the claimed
FAILED phrase classifies as danger.  The danger keyword in the source has a
leading space (and no trailing period), so a text that starts directly with
the phrase contains the claimed substring yet classifies as good. -/
theorem severity_failed_without_space_cex :
    occursIn claimedFailedText claimedFailedText = true
    ∧ getColorBySeverity claimedFailedText = "good"
    ∧ getColorBySeverity claimedFailedText ≠ "danger" :=
  ⟨by decide, by decide, by decide⟩

/-- C4 amended: every text containing the actual danger keyword, which has
a leading space before the FAILED build-status phrase and no trailing
period, classifies as danger. -/
theorem severity_failed_keyword_danger (text : String)
    (h : occursIn dangerFailedMsg text = true) :
    getColorBySeverity text = "danger" :=
  danger_of_occurs text dangerFailedMsg (by decide) h

/-- C4 amended witness: the CodeBuild failure text used by the repository
tests classifies as danger. -/
theorem severity_failed_keyword_danger_witness :
    getColorBySeverity
      ("Build for build project some-project" ++ dangerFailedMsg ++ ".")
      = "danger" :=
  severity_failed_keyword_danger
    ("Build for build project some-project" ++ dangerFailedMsg ++ ".") (by decide)

/-- C5 counterexample: the claim says the extraction captures the segment
after the last digits-colon pattern.  The regex is unanchored so its match
starts at the first such pattern: on an identifier with two digit groups
the result keeps everything after the first one, not the trailing segment
after the last one. -/
theorem arn_first_not_last_cex :
    getNameFromArn "111:aaa:222:bbb" = some "aaa:222:bbb"
    ∧ getNameFromArn "111:aaa:222:bbb" ≠ some "bbb" :=
  ⟨by decide, by decide⟩

/-- C5 amended: the extraction returns the trailing segment after the first
three-digits-colon pattern (on the sample ARN, where the only such pattern
sits at the end of the account number, this is the topic name); on an
identifier containing no such pattern it returns the absent sentinel, and
the handler then uses the raw identifier as the username. -/
theorem arn_extraction_amended :
    getNameFromArn "arn:aws:sns:ap-southeast-2:873114526714:codebuild-notifications"
      = some "codebuild-notifications"
    ∧ (∀ arn : String, ¬ HasDddColon arn.toList → getNameFromArn arn = none)
    ∧ (∀ arn : String, getNameFromArn arn = none → slackUsername arn = arn) := by
  refine ⟨by decide, ?_, ?_⟩
  · intro arn h
    exact (getNameFromArn_none_iff arn).mpr h
  · intro arn h
    unfold slackUsername
    rw [h]

/-- C5 amended witness: a plain identifier with no digit group is used as
the username unchanged. -/
theorem arn_extraction_amended_witness :
    slackUsername "my-topic" = "my-topic" :=
  arn_extraction_amended.2.2 "my-topic" (by decide)

/-- A config-change notification whose outer changeType is the empty
string: a string, as the claim requires, but falsy in JavaScript. -/
def emptyChangeTypeInput : Json :=
  .obj [("configurationItemDiff",
          .obj [("changedProperties", .obj [("x", .num 1)]), ("changeType", .str "")]),
        ("messageType", .str "ConfigurationItemChangeNotification")]

/-- C6 counterexample: the claim quantifies over every diff whose
changeType is a string, but the filter guard tests JavaScript truthiness,
so with the empty-string changeType the combine step is skipped and the
filter returns the whole diff, not the changedProperties mapping with a
changeType key injected. -/
theorem config_filter_empty_changetype_cex :
    configChanges emptyChangeTypeInput
      = .ok (.obj [("changedProperties", .obj [("x", .num 1)]), ("changeType", .str "")])
    ∧ ((.obj [("changedProperties", .obj [("x", .num 1)]), ("changeType", .str "")] : Json)
        ≠ .obj [("x", .num 1), ("changeType", .str "")]) :=
  ⟨rfl, by intro h; simp at h⟩

/-- C6 amended: for every input whose messageType is the config-change type
and whose configurationItemDiff has exactly the two properties
changedProperties (a mapping) and changeType (a non-empty string), the
filter returns the changedProperties mapping: when it has no changeType key
of its own, the outer change-type value is appended under that key; when it
already has a truthy changeType value, it is returned unchanged. -/
theorem config_filter_combine_amended
    (kvs diffKvs cp : List (String × Json)) (ct : String)
    (hdiff : lookupKey kvs "configurationItemDiff" = some (.obj diffKvs))
    (hmt : lookupKey kvs "messageType"
      = some (.str "ConfigurationItemChangeNotification"))
    (hlen : diffKvs.length = 2)
    (hcp : lookupKey diffKvs "changedProperties" = some (.obj cp))
    (hct : lookupKey diffKvs "changeType" = some (.str ct))
    (hne : ct ≠ "") :
    (lookupKey cp "changeType" = none →
      configChanges (.obj kvs) = .ok (.obj (cp ++ [("changeType", .str ct)])))
    ∧ (∀ w, lookupKey cp "changeType" = some w → truthy w = true →
      configChanges (.obj kvs) = .ok (.obj cp)) := by
  have hrun : configChanges (.obj kvs)
      = .ok (.obj (setKey cp "changeType"
          (match lookupKey cp "changeType" with
            | some w => if truthy w then w else .str ct
            | none => .str ct))) := by
    unfold configChanges
    simp [jsGet, hdiff, hmt, hcp, hct, truthyOpt, truthy, strictEqStr,
      jsKeysLength, hlen, hne]
  constructor
  · intro hnone
    rw [hrun, hnone]
    show Except.ok (Json.obj (setKey cp "changeType" (.str ct))) = _
    rw [setKey_of_not_mem cp "changeType" (.str ct) hnone]
  · intro w hw htr
    rw [hrun, hw]
    show Except.ok (Json.obj (setKey cp "changeType"
      (if truthy w = true then w else Json.str ct))) = _
    rw [if_pos htr]
    rw [setKey_self cp "changeType" w hw]

/-- C6 amended witness: the update notification from the claim, with a
non-empty changeType, reduces to the changedProperties mapping with the
changeType key appended. -/
theorem config_filter_combine_witness :
    configChanges (.obj [("configurationItemDiff",
        .obj [("changedProperties", .obj [("x", .num 1)]), ("changeType", .str "UPDATE")]),
      ("messageType", .str "ConfigurationItemChangeNotification")])
      = .ok (.obj [("x", .num 1), ("changeType", .str "UPDATE")]) :=
  (config_filter_combine_amended
    [("configurationItemDiff",
        Json.obj [("changedProperties", .obj [("x", .num 1)]), ("changeType", .str "UPDATE")]),
      ("messageType", .str "ConfigurationItemChangeNotification")]
    [("changedProperties", Json.obj [("x", .num 1)]), ("changeType", .str "UPDATE")]
    [("x", Json.num 1)] "UPDATE" rfl rfl rfl rfl rfl (by decide)).1 rfl

/-- C7: an input mapping without a configurationItemDiff property, or whose
messageType is anything other than the config-change type, passes through
the filter unchanged. -/
theorem config_filter_identity (kvs : List (String × Json))
    (h : lookupKey kvs "configurationItemDiff" = none
      ∨ lookupKey kvs "messageType"
          ≠ some (.str "ConfigurationItemChangeNotification")) :
    configChanges (.obj kvs) = .ok (.obj kvs) := by
  unfold configChanges
  rcases h with h1 | h2
  · simp [jsGet, h1, truthyOpt]
  · have hfalse : strictEqStr (lookupKey kvs "messageType")
        "ConfigurationItemChangeNotification" = false := by
      cases hmt : lookupKey kvs "messageType" with
      | none => rfl
      | some j =>
        cases j with
        | str s =>
          have hs : s ≠ "ConfigurationItemChangeNotification" :=
            fun hs => h2 (by rw [hmt, hs])
          simp [strictEqStr, hs]
        | null => rfl
        | bool b => rfl
        | num n => rfl
        | arr elems => rfl
        | obj o => rfl
    simp [jsGet, hfalse]

/-- C7 witness: the non-config item from the repository tests is returned
unchanged. -/
theorem config_filter_identity_witness :
    configChanges (.obj [("someItem", .str "someData")])
      = .ok (.obj [("someItem", .str "someData")]) :=
  config_filter_identity [("someItem", .str "someData")] (Or.inl rfl)

/-- C8: a message that does not parse as JSON, and a message that parses to
anything other than a plain object, both come back from the flattener as
the original text, with no error. -/
theorem flatten_nonobject_unchanged :
    (∀ s : String, jsonParse s = none →
      maybeGetAttachmentFields s = .ok (.txt s))
    ∧ (∀ (s : String) (d : Json), jsonParse s = some d → isPlainObj d = false →
      maybeGetAttachmentFields s = .ok (.txt s)) := by
  constructor
  · intro s h
    unfold maybeGetAttachmentFields
    rw [h]
  · intro s d h hobj
    unfold maybeGetAttachmentFields
    simp [h, hobj]

/-- C8 witness: a non-JSON text and a JSON array both flatten to
themselves. -/
theorem flatten_nonobject_unchanged_witness :
    maybeGetAttachmentFields "not json" = .ok (.txt "not json")
    ∧ maybeGetAttachmentFields "[1]" = .ok (.txt "[1]") :=
  ⟨flatten_nonobject_unchanged.1 "not json" rfl,
    flatten_nonobject_unchanged.2 "[1]" (.arr [.num 1]) rfl rfl⟩

/-- C9: whenever the handler assembles a payload, its single attachment
populates exactly one of text and fields: a field sequence from the
flattener lands in fields with the text cleared to the empty string, and a
string from the flattener lands (quote-trimmed) in text with no fields. -/
theorem payload_text_fields_exclusive (sns : SnsRecord) (msg : SlackMessage)
    (h : handler sns = .ok msg) :
    ∃ att, msg.attachments = [att]
      ∧ ((∃ fs, maybeGetAttachmentFields sns.Message = .ok (.fields fs)
            ∧ att.fields = some fs ∧ att.text = "")
        ∨ (∃ t, maybeGetAttachmentFields sns.Message = .ok (.txt t)
            ∧ att.fields = none ∧ att.text = trimQuotes t)) := by
  unfold handler at h
  cases hm : maybeGetAttachmentFields sns.Message with
  | error e =>
    rw [hm] at h
    simp at h
  | ok r =>
    rw [hm] at h
    cases r with
    | fields fs =>
      simp only [Except.ok.injEq] at h
      subst h
      exact ⟨_, rfl, Or.inl ⟨fs, rfl, rfl, rfl⟩⟩
    | txt t =>
      simp only [Except.ok.injEq] at h
      subst h
      exact ⟨_, rfl, Or.inr ⟨t, rfl, rfl, rfl⟩⟩

/-- C9 witness: the handler output for a plain-text message has one
attachment carrying the message as text and no fields. -/
theorem payload_text_fields_exclusive_witness :
    ∃ att, (SlackMessage.mk "" "arn"
        [{ color := "good", text := "hello", footer := "", fields := none }]).attachments
        = [att]
      ∧ ((∃ fs, maybeGetAttachmentFields "hello" = .ok (.fields fs)
            ∧ att.fields = some fs ∧ att.text = "")
        ∨ (∃ t, maybeGetAttachmentFields "hello" = .ok (.txt t)
            ∧ att.fields = none ∧ att.text = trimQuotes t)) :=
  payload_text_fields_exclusive
    { TopicArn := "arn", Subject := none, Message := "hello", UnsubscribeUrl := none }
    (SlackMessage.mk "" "arn"
      [{ color := "good", text := "hello", footer := "", fields := none }]) rfl

/-- C10: the single-entry unwrap loop descends through one-element arrays
the same way as through one-property objects (typeof of an array is
object and its single key is the index 0), so the message whose body wraps
the one-element array holding 42 flattens to the serialized leaf, the
string 42. -/
theorem unwrap_descends_arrays :
    (∀ x : Json, unwrapSingles (.arr [x]) = unwrapSingles x)
    ∧ maybeGetAttachmentFields "\x7b\"a\":[42]\x7d" = .ok (.txt "42") :=
  ⟨fun _ => rfl, rfl⟩

/-- C10 witness: the unwrap step applied to the one-element array holding
42 continues with the bare 42. -/
theorem unwrap_descends_arrays_witness :
    unwrapSingles (.arr [.num 42]) = unwrapSingles (.num 42) :=
  unwrap_descends_arrays.1 (.num 42)

end SnsToSlack
